import Mathlib

/-!
Shallow embedding of the region-selection core of the rq repository
(src/selection.rs), together with theorems settling the specification
claims about it.

Conventions of the embedding:
* Rust i32 values are modelled as Lean Int together with explicit
  wrapping (wrap32) at the operations where release-mode Rust wraps.
* Rust u32 values are modelled as Nat.
* Pointer coordinates arrive from the compositor as f64; events in this
  model carry them as rationals, which is exact for every value the
  claims quantify over, and the floor-then-cast performed by the code
  (position.floor() as i32, a saturating cast) is modelled by f64toI32.
* Fallible operations (Option in the source, or an unwrap that can
  panic) return Option; none models the panic.
-/

set_option autoImplicit false

namespace Rq

/-! ### Machine-integer helpers -/

/-- Smallest i32 value, -2 ^ 31. -/
def i32Min : Int := -2147483648

/-- Largest i32 value, 2 ^ 31 - 1. -/
def i32Max : Int := 2147483647

/-- Wrapping of an integer into the i32 range, as Rust release-mode
arithmetic does on overflow. -/
def wrap32 (n : Int) : Int := (n + 2147483648) % 4294967296 - 2147483648

/-- The result of an i32 subtraction in release mode. -/
def i32sub (a b : Int) : Int := wrap32 (a - b)

/-- The result of i32::abs in release mode (i32::MIN wraps to itself). -/
def i32abs (a : Int) : Int := wrap32 |a|

/-- The result of an i32 addition in release mode. -/
def i32add (a b : Int) : Int := wrap32 (a + b)

/-- Reinterpretation of an i32 value as u32 (Rust: as u32). -/
def u32ofI32 (a : Int) : Nat := (a % 4294967296).toNat

/-- Whether a point lies in the i32 range on both axes (automatic for
every value the Rust type system admits). -/
def inI32 (x y : Int) : Prop :=
  i32Min ≤ x ∧ x ≤ i32Max ∧ i32Min ≤ y ∧ y ≤ i32Max

instance (x y : Int) : Decidable (inI32 x y) := by
  unfold inI32; infer_instance

/-- Model of Rust f64 floor followed by the saturating cast as i32,
applied to an exactly-represented rational coordinate. -/
def f64toI32 (q : ℚ) : Int := max i32Min (min i32Max ⌊q⌋)

/-! ### Data model: Pos and Region (tiny_skia IntRect) -/

/-- Pos from src/selection.rs: a global pointer position in i32
coordinates. -/
structure Pos where
  x : Int
  y : Int
deriving DecidableEq, Repr

/-- Rust Pos implements Default with zero fields; set_from / set_to use
it through get_or_insert(Default::default()). -/
def Pos.default : Pos := ⟨0, 0⟩

/-- Region = tiny_skia::IntRect: an integer rectangle whose width and
height are stored as nonzero u32 (LengthU32).  Validity is enforced by
the smart constructor from_xywh below, matching the library. -/
structure IntRect where
  x : Int
  y : Int
  w : Nat
  h : Nat
deriving DecidableEq, Repr

/-- Model of tiny_skia's IntRect::from_xywh (external dependency of
src/selection.rs): it checked_adds x + w and y + h as i32 and builds the
sizes with LengthU32::new, so it returns none when either size is zero,
does not fit in i32, or a corner coordinate overflows i32. -/
def IntRect.from_xywh (x y : Int) (w h : Nat) : Option IntRect :=
  if (w : Int) ≤ i32Max ∧ (h : Int) ≤ i32Max ∧
     i32Min ≤ x + (w : Int) ∧ x + (w : Int) ≤ i32Max ∧
     i32Min ≤ y + (h : Int) ∧ y + (h : Int) ≤ i32Max ∧
     0 < w ∧ 0 < h then
    some ⟨x, y, w, h⟩
  else
    none

/-! ### Selection (src/selection.rs lines 54-119) -/

/-- Selection from src/selection.rs: data holds the (from, to) corner
pair; the source field on (a Lean keyword via the onFun notation, so
named active here, as the specification names it) is true while a drag
is in progress. -/
structure Selection where
  data : Option (Pos × Pos)
  active : Bool
deriving DecidableEq, Repr

/-- Default::default() for Selection. -/
def Selection.default : Selection := ⟨none, false⟩

/-- Selection::from (the name from is a Lean keyword, hence from_). -/
def Selection.from_ (s : Selection) : Option Pos := s.data.map Prod.fst

/-- Selection::to. -/
def Selection.to (s : Selection) : Option Pos := s.data.map Prod.snd

/-- Selection::set_from: get_or_insert a default pair, then set its
first component. -/
def Selection.set_from (s : Selection) (f : Pos) : Selection :=
  match s.data with
  | none => { s with data := some (f, Pos.default) }
  | some (_, t) => { s with data := some (f, t) }

/-- Selection::set_to: get_or_insert a default pair, then set its
second component. -/
def Selection.set_to (s : Selection) (t : Pos) : Selection :=
  match s.data with
  | none => { s with data := some (Pos.default, t) }
  | some (f, _) => { s with data := some (f, t) }

/-- Selection::has_value. -/
def Selection.has_value (s : Selection) : Bool := s.data.isSome

/-- Selection::reset. -/
def Selection.reset (s : Selection) : Selection :=
  { s with active := false, data := none }

/-- Selection::begin: reset, switch on, then set both corners to pos. -/
def Selection.begin (s : Selection) (pos : Pos) : Selection :=
  (({ s.reset with active := true }).set_from pos).set_to pos

/-- Selection::update: moves the to corner only while on. -/
def Selection.update (s : Selection) (pos : Pos) : Selection :=
  if s.active then s.set_to pos else s

/-- Selection::end (the name end is a Lean keyword, hence end_): only
while on, switch off and set the to corner. -/
def Selection.end_ (s : Selection) (pos : Pos) : Selection :=
  if s.active then { s.set_to pos with active := false } else s

/-- Selection::to_region: map the corner pair through
IntRect::from_xywh and flatten.  Width and height are computed with i32
subtraction and abs then cast as u32, exactly as the source line
(from.x - to.x).abs() as u32 does. -/
def Selection.to_region (s : Selection) : Option IntRect :=
  match s.data with
  | none => none
  | some (f, t) =>
    IntRect.from_xywh (min f.x t.x) (min f.y t.y)
      (u32ofI32 (i32abs (i32sub f.x t.x))) (u32ofI32 (i32abs (i32sub f.y t.y)))

/-! ### LayerState and event handling (src/selection.rs lines 121-478) -/

/-- LayerContext from src/selection.rs: one overlay surface per output.
The protocol surface handle is modelled by its numeric identity (the
code compares surfaces with wl_surface().id().eq), the pixmap is not
needed by any claim. -/
structure LayerContext where
  surface : Nat
  region : IntRect
deriving DecidableEq, Repr

/-- The kind of a smithay PointerEventKind, with the button bitmask for
press and release. -/
inductive PointerEventKind where
  | enter
  | leave
  | motion
  | press (button : Nat)
  | release (button : Nat)
  | axis
deriving DecidableEq, Repr

/-- A smithay PointerEvent: originating surface (by identity),
surface-local position as reported by the compositor, and kind. -/
structure PointerEvent where
  surface : Nat
  position : ℚ × ℚ
  kind : PointerEventKind
deriving DecidableEq, Repr

/-- BTN_LEFT, the Linux input-event code of the primary button. -/
def BTN_LEFT : Nat := 0x110

/-- Keysym::Escape. -/
def escapeKeysym : Nat := 0xff1b

/-- The fields of LayerState that the selection logic reads or writes.
Protocol plumbing (registry, shm pool, keyboard and pointer handles,
last_draw) carries no claim-relevant state and is omitted. -/
structure LayerState where
  exit : Bool
  pos_pressed : Option Pos
  pos_current : Pos
  selection : Selection
  layer : List LayerContext
deriving DecidableEq, Repr

/-- The lookup self.layer.iter().find(..).map(|ctx| ctx.region) in
LayerState::pointer_frame. -/
def lookupRegion (layers : List LayerContext) (surface : Nat) : Option IntRect :=
  (layers.find? (fun l => l.surface == surface)).map (fun l => l.region)

/-- The global position computed for an event: floor the local f64
coordinates, cast as i32, and add the region origin (i32 addition). -/
def posOfEvent (region : IntRect) (e : PointerEvent) : Pos :=
  ⟨i32add (f64toI32 e.position.1) region.x, i32add (f64toI32 e.position.2) region.y⟩

/-- The body of the per-event loop of LayerState::pointer_frame: find
the originating surface's region (the source unwraps the lookup, so a
missing surface panics, modelled by none), convert the local position to
global, store it, re-begin the selection whenever the button is held and
the position differs from the press point, then dispatch on the event
kind. -/
def LayerState.handleEvent (st : LayerState) (e : PointerEvent) : Option LayerState :=
  match lookupRegion st.layer e.surface with
  | none => none
  | some region =>
    let pos := posOfEvent region e
    let st1 := { st with pos_current := pos }
    let st2 :=
      match st1.pos_pressed with
      | some pressed_pos =>
        if pos ≠ pressed_pos then
          { st1 with selection := st1.selection.begin pressed_pos }
        else st1
      | none => st1
    some (match e.kind with
      | .enter => st2
      | .leave => st2
      | .motion => st2
      | .press button =>
        if button &&& BTN_LEFT > 0 then { st2 with pos_pressed := some pos } else st2
      | .release button =>
        if button &&& BTN_LEFT > 0 then
          { st2 with pos_pressed := none, selection := st2.selection.end_ pos, exit := true }
        else st2
      | .axis => st2)

/-- LayerState::pointer_frame: handle a batch of pointer events in
order. -/
def LayerState.pointer_frame (st : LayerState) (events : List PointerEvent) :
    Option LayerState :=
  events.foldlM LayerState.handleEvent st

/-- KeyboardHandler::press_key: Escape sets the exit flag. -/
def LayerState.press_key (st : LayerState) (keysym : Nat) : LayerState :=
  if keysym == escapeKeysym then { st with exit := true } else st

/-- CompositorHandler::frame: apply the tracked cursor position to the
selection.  The subsequent frame pacing and drawing do not change any
claim-relevant state. -/
def LayerState.frame (st : LayerState) : LayerState :=
  { st with selection := st.selection.update st.pos_current }

/-- One dispatched compositor event, as seen by the blocking event
loop of wait_for_selection. -/
inductive Event where
  | pointer (events : List PointerEvent)
  | key (keysym : Nat)
  | frame
deriving DecidableEq, Repr

/-- Dispatch of one event to its handler. -/
def dispatch (st : LayerState) : Event → Option LayerState
  | .pointer evs => st.pointer_frame evs
  | .key k => some (st.press_key k)
  | .frame => some st.frame

/-- The blocking event loop of wait_for_selection: dispatch, then break
when the exit flag is set; events after the exit are never serviced. -/
def runLoop : LayerState → List Event → Option LayerState
  | st, [] => some st
  | st, e :: es =>
    match dispatch st e with
    | none => none
    | some st' => if st'.exit then some st' else runLoop st' es

/-- The LayerState value built at the start of wait_for_selection,
after the per-output layer list has been populated. -/
def initState (layers : List LayerContext) : LayerState :=
  { exit := false
    pos_pressed := none
    pos_current := Pos.default
    selection := Selection.default
    layer := layers }

/-- The value wait_for_selection returns once the loop has exited:
selection.to_region().ok_or(anyhow!("failed to get selection")). -/
def waitResult (st : LayerState) : Except String IntRect :=
  match st.selection.to_region with
  | some r => Except.ok r
  | none => Except.error "failed to get selection"

/-- wait_for_selection, from the layer-list setup on: run the event
loop over the session's events and read out the committed selection;
none models a panic inside a handler. -/
def wait_for_selection (layers : List LayerContext) (es : List Event) :
    Option (Except String IntRect) :=
  (runLoop (initState layers) es).map waitResult

/-- Whether a pointer event is a press of the primary button, judged
exactly as the handler does (button & BTN_LEFT > 0). -/
def PointerEventKind.isLeftPress : PointerEventKind → Bool
  | .press b => decide (0 < b &&& BTN_LEFT)
  | _ => false

/-- Whether a dispatched event contains no press of the primary
button. -/
def Event.noLeftPress : Event → Bool
  | .pointer evs => evs.all (fun pe => ! pe.kind.isLeftPress)
  | .key _ => true
  | .frame => true

/-- The Idle configuration of the input tracker: no press has been
recorded and the selection is still in its reset state. -/
def idle (st : LayerState) : Prop :=
  st.pos_pressed = none ∧ st.selection = Selection.default

/-! ### Helper lemmas about Selection -/

lemma Selection.set_to_set_to (s : Selection) (q p : Pos) :
    (s.set_to q).set_to p = s.set_to p := by
  rcases s with ⟨d, a⟩
  rcases d with _ | ⟨f, t⟩ <;> simp [Selection.set_to]

lemma Selection.set_to_active (s : Selection) (p : Pos) :
    (s.set_to p).active = s.active := by
  rcases s with ⟨d, a⟩
  rcases d with _ | ⟨f, t⟩ <;> simp [Selection.set_to]

lemma Selection.begin_eq (s : Selection) (p : Pos) :
    s.begin p = ⟨some (p, p), true⟩ := rfl

lemma Selection.update_of_not_active (s : Selection) (p : Pos)
    (h : s.active = false) : s.update p = s := by
  simp [Selection.update, h]

lemma Selection.update_of_active (s : Selection) (p : Pos)
    (h : s.active = true) : s.update p = s.set_to p := by
  simp [Selection.update, h]

lemma Selection.end_active (s : Selection) (p : Pos) :
    (s.end_ p).active = false := by
  cases h : s.active <;> simp [Selection.end_, h]

lemma Selection.end_of_not_active (s : Selection) (p : Pos)
    (h : s.active = false) : s.end_ p = s := by
  simp [Selection.end_, h]

lemma Selection.update_update (s : Selection) (q p : Pos) :
    (s.update q).update p = s.update p := by
  cases h : s.active
  · rw [s.update_of_not_active q h, s.update_of_not_active p h]
  · rw [s.update_of_active q h,
      Selection.update_of_active _ p (by rw [Selection.set_to_active]; exact h),
      s.update_of_active p h, Selection.set_to_set_to]

lemma Selection.foldl_update_of_not_active (s : Selection)
    (h : s.active = false) (qs : List Pos) :
    qs.foldl Selection.update s = s := by
  induction qs with
  | nil => rfl
  | cons q qs ih =>
    rw [List.foldl_cons, s.update_of_not_active q h, ih]

/-! ### Helper lemmas about the machine-integer model -/

lemma wrap32_eq_self {n : Int} (h1 : i32Min ≤ n) (h2 : n ≤ i32Max) :
    wrap32 n = n := by
  unfold i32Min at h1
  unfold i32Max at h2
  unfold wrap32
  rw [Int.emod_eq_of_lt (by omega) (by omega)]
  omega

/-- Computing (a - b).abs() as u32 in i32 arithmetic gives the exact
natural absolute difference whenever the subtraction does not
overflow. -/
lemma u32_abs_sub_eq {a b : Int} (h : |a - b| ≤ i32Max) :
    u32ofI32 (i32abs (i32sub a b)) = (a - b).natAbs := by
  have hMin : i32Min ≤ a - b := by
    unfold i32Min; unfold i32Max at h
    rcases abs_le.mp h with ⟨h1, _⟩; omega
  have hMax : a - b ≤ i32Max := le_of_abs_le h
  rw [i32sub, wrap32_eq_self hMin hMax, i32abs,
    wrap32_eq_self (le_trans (by unfold i32Min; omega) (abs_nonneg _)) h,
    u32ofI32, Int.emod_eq_of_lt (abs_nonneg _)
      (lt_of_le_of_lt h (by unfold i32Max; omega))]
  rw [Int.abs_eq_natAbs, Int.toNat_natCast]

/-! ### Theorems for the claims -/

/-- C1 (counterexample): the exact two-output drag the claim names,
from global (1900, 500) to global (2000, 500), does not yield the
rectangle (1900, 500, 100, 0): Selection::to_region returns None,
because tiny_skia's IntRect stores its sizes as nonzero u32 and
from_xywh rejects a zero height. -/
theorem claim_C1_counterexample :
    ((Selection.default.begin ⟨1900, 500⟩).end_ ⟨2000, 500⟩).to_region = none := by
  decide

/-- C1 (amended): for a drag from anchor A to final cursor B, in any
order of the coordinates and with the i32 differences not overflowing,
the resolved rectangle has origin (min(A.x,B.x), min(A.y,B.y)) and size
(abs(A.x-B.x), abs(A.y-B.y)) provided both differences are nonzero; a
zero-area drag is instead rejected (see the counterexample). -/
theorem claim_C1_to_region (A B : Pos)
    (hA : inI32 A.x A.y) (hB : inI32 B.x B.y)
    (hdx : |A.x - B.x| ≤ i32Max) (hdy : |A.y - B.y| ≤ i32Max)
    (hx : A.x ≠ B.x) (hy : A.y ≠ B.y) :
    ((Selection.default.begin A).end_ B).to_region =
      some ⟨min A.x B.x, min A.y B.y, (A.x - B.x).natAbs, (A.y - B.y).natAbs⟩ := by
  have hstep : (Selection.default.begin A).end_ B = ⟨some (A, B), false⟩ := rfl
  rw [hstep]
  show IntRect.from_xywh (min A.x B.x) (min A.y B.y)
      (u32ofI32 (i32abs (i32sub A.x B.x))) (u32ofI32 (i32abs (i32sub A.y B.y))) = _
  rw [u32_abs_sub_eq hdx, u32_abs_sub_eq hdy]
  rw [IntRect.from_xywh, if_pos]
  obtain ⟨hA1, hA2, hA3, hA4⟩ := hA
  obtain ⟨hB1, hB2, hB3, hB4⟩ := hB
  rw [Int.abs_eq_natAbs] at hdx hdy
  unfold i32Min i32Max at *
  refine ⟨?_, ?_, ?_, ?_, ?_, ?_, ?_, ?_⟩ <;> omega

/-- C1 (witness): the amended statement evaluated on the drag from
(1900, 500) to (2000, 800). -/
theorem claim_C1_to_region_witness :
    ((Selection.default.begin ⟨1900, 500⟩).end_ ⟨2000, 800⟩).to_region =
      some ⟨1900, 500, 100, 300⟩ :=
  claim_C1_to_region ⟨1900, 500⟩ ⟨2000, 800⟩ (by decide) (by decide)
    (by decide) (by decide) (by decide) (by decide)

/-- C4 (counterexample): Selection::end on an inactive selection is a
no-op, so it does not set the cursor to the release position: ending
the inactive selection with corners (0,0) and (5,5) at position (9,9)
leaves the cursor at (5,5). -/
theorem claim_C4_counterexample :
    ((⟨some (⟨0, 0⟩, ⟨5, 5⟩), false⟩ : Selection).end_ ⟨9, 9⟩).to ≠ some ⟨9, 9⟩ ∧
    (⟨some (⟨0, 0⟩, ⟨5, 5⟩), false⟩ : Selection).end_ ⟨9, 9⟩ =
      ⟨some (⟨0, 0⟩, ⟨5, 5⟩), false⟩ := by
  decide

/-- C4 (amended): Selection::end leaves active false in every state,
but sets the cursor to pos only when the selection was active (on an
inactive selection it is a no-op); independently, the handler reacts to
a left-button release in any state by clearing pos_pressed and setting
the exit flag. -/
theorem claim_C4_end_and_release (s : Selection) (p : Pos)
    (st st' : LayerState) (e : PointerEvent) (r : IntRect) (b : Nat)
    (hk : e.kind = .release b) (hb : b &&& BTN_LEFT > 0)
    (hlk : lookupRegion st.layer e.surface = some r)
    (hstep : st.handleEvent e = some st') :
    (s.end_ p).active = false ∧
    (s.active = true → (s.end_ p).to = some p) ∧
    (s.active = false → s.end_ p = s) ∧
    st'.pos_pressed = none ∧ st'.exit = true := by
  refine ⟨s.end_active p, ?_, s.end_of_not_active p, ?_⟩
  · intro h
    rw [Selection.end_, if_pos h]
    rcases s with ⟨d, a⟩
    rcases d with _ | ⟨f, t⟩ <;> simp [Selection.set_to, Selection.to]
  · simp only [LayerState.handleEvent, hlk, hk, hb, if_pos] at hstep
    rw [Option.some_inj] at hstep
    subst hstep
    constructor <;> rfl

/-- C4 (witness): the amended statement evaluated on an active
selection ended at (9, 9) and on a concrete left-button release event
handled in a concrete state. -/
theorem claim_C4_end_and_release_witness :
    ((⟨some (⟨0, 0⟩, ⟨5, 5⟩), true⟩ : Selection).end_ ⟨9, 9⟩).active = false ∧
    ((⟨some (⟨0, 0⟩, ⟨5, 5⟩), true⟩ : Selection).active = true →
      ((⟨some (⟨0, 0⟩, ⟨5, 5⟩), true⟩ : Selection).end_ ⟨9, 9⟩).to = some ⟨9, 9⟩) ∧
    ((⟨some (⟨0, 0⟩, ⟨5, 5⟩), true⟩ : Selection).active = false →
      (⟨some (⟨0, 0⟩, ⟨5, 5⟩), true⟩ : Selection).end_ ⟨9, 9⟩ =
        ⟨some (⟨0, 0⟩, ⟨5, 5⟩), true⟩) ∧
    (⟨true, none, ⟨7, 8⟩, ⟨some (⟨3, 3⟩, ⟨7, 8⟩), false⟩,
        [⟨0, ⟨0, 0, 1920, 1080⟩⟩]⟩ : LayerState).pos_pressed = none ∧
    (⟨true, none, ⟨7, 8⟩, ⟨some (⟨3, 3⟩, ⟨7, 8⟩), false⟩,
        [⟨0, ⟨0, 0, 1920, 1080⟩⟩]⟩ : LayerState).exit = true := by
  exact claim_C4_end_and_release ⟨some (⟨0, 0⟩, ⟨5, 5⟩), true⟩ ⟨9, 9⟩
    ⟨false, some ⟨3, 3⟩, ⟨3, 3⟩, ⟨some (⟨3, 3⟩, ⟨3, 3⟩), true⟩, [⟨0, ⟨0, 0, 1920, 1080⟩⟩]⟩
    ⟨true, none, ⟨7, 8⟩, ⟨some (⟨3, 3⟩, ⟨7, 8⟩), false⟩, [⟨0, ⟨0, 0, 1920, 1080⟩⟩]⟩
    ⟨0, ((7 : ℚ), (8 : ℚ)), .release BTN_LEFT⟩ ⟨0, 0, 1920, 1080⟩ BTN_LEFT
    rfl (by decide) (by decide) (by decide)

/-- C9: a pointer event whose surface matches no recorded layer makes
the handler fail fatally (the unwrap of the region lookup panics,
modelled by none) instead of being silently ignored. -/
theorem claim_C9_unknown_surface (st : LayerState) (e : PointerEvent)
    (h : lookupRegion st.layer e.surface = none) :
    st.handleEvent e = none := by
  simp [LayerState.handleEvent, h]

/-- C9 (witness): a concrete pointer event with an empty layer list. -/
theorem claim_C9_unknown_surface_witness :
    LayerState.handleEvent ⟨false, none, ⟨0, 0⟩, Selection.default, []⟩
      ⟨0, ((1 : ℚ), (2 : ℚ)), .motion⟩ = none :=
  claim_C9_unknown_surface ⟨false, none, ⟨0, 0⟩, Selection.default, []⟩
    ⟨0, ((1 : ℚ), (2 : ℚ)), .motion⟩ (by decide)

/-- C3: a pointer motion event arriving while the button is held at
pressed_at = pp and whose converted global position differs from pp
makes the handler call Selection::begin(pp): the selection's anchor
after the event is the original press point. -/
theorem claim_C3_anchor_is_press_point (st : LayerState) (e : PointerEvent)
    (r : IntRect) (pp : Pos)
    (hlk : lookupRegion st.layer e.surface = some r)
    (hpp : st.pos_pressed = some pp)
    (hk : e.kind = .motion)
    (hne : posOfEvent r e ≠ pp) :
    st.handleEvent e =
      some { st with pos_current := posOfEvent r e,
                     selection := st.selection.begin pp } ∧
    (st.selection.begin pp).from_ = some pp := by
  constructor
  · simp only [LayerState.handleEvent, hlk, hpp, hk, if_pos hne]
  · rw [Selection.begin_eq]
    rfl

/-- C3 (witness): a concrete motion event at local (10, 10) while the
button is held at (3, 3). -/
theorem claim_C3_anchor_is_press_point_witness :
    LayerState.handleEvent
      ⟨false, some ⟨3, 3⟩, ⟨3, 3⟩, Selection.default, [⟨0, ⟨0, 0, 1920, 1080⟩⟩]⟩
      ⟨0, ((10 : ℚ), (10 : ℚ)), .motion⟩ =
      some { exit := false, pos_pressed := some ⟨3, 3⟩, pos_current := ⟨10, 10⟩,
             selection := Selection.default.begin ⟨3, 3⟩,
             layer := [⟨0, ⟨0, 0, 1920, 1080⟩⟩] } ∧
    (Selection.default.begin ⟨3, 3⟩).from_ = some ⟨3, 3⟩ := by
  have h := claim_C3_anchor_is_press_point
    ⟨false, some ⟨3, 3⟩, ⟨3, 3⟩, Selection.default, [⟨0, ⟨0, 0, 1920, 1080⟩⟩]⟩
    ⟨0, ((10 : ℚ), (10 : ℚ)), .motion⟩ ⟨0, 0, 1920, 1080⟩ ⟨3, 3⟩
    (by decide) (by decide) rfl (by decide)
  exact ⟨by rw [h.1]; decide, h.2⟩

/-- C10: while the button is held at pp, every drag-preserving pointer
event (enter, leave, motion or axis) whose position differs from pp
re-invokes Selection::begin(pp), so after the event both stored corners
equal the press point pp; the current cursor position reaches the
selection only at the next frame tick, which moves the to corner to
pos_current. -/
theorem claim_C10_rebegin_every_event (st : LayerState) (e : PointerEvent)
    (r : IntRect) (pp : Pos)
    (hlk : lookupRegion st.layer e.surface = some r)
    (hpp : st.pos_pressed = some pp)
    (hk : e.kind = .enter ∨ e.kind = .leave ∨ e.kind = .motion ∨ e.kind = .axis)
    (hne : posOfEvent r e ≠ pp) :
    st.handleEvent e =
      some { st with pos_current := posOfEvent r e,
                     selection := st.selection.begin pp } ∧
    (st.selection.begin pp).from_ = some pp ∧
    (st.selection.begin pp).to = some pp ∧
    (LayerState.frame { st with pos_current := posOfEvent r e,
                                selection := st.selection.begin pp }).selection.to =
      some (posOfEvent r e) := by
  refine ⟨?_, by rw [Selection.begin_eq]; rfl, by rw [Selection.begin_eq]; rfl, ?_⟩
  · rcases hk with hk | hk | hk | hk <;>
      simp only [LayerState.handleEvent, hlk, hpp, hk, if_pos hne]
  · show ((st.selection.begin pp).update (posOfEvent r e)).to = _
    rw [Selection.begin_eq, Selection.update_of_active _ _ rfl]
    rfl

/-- C10 (witness): a concrete motion event at local (10, 10) while the
button is held at (3, 3), followed by a frame tick. -/
theorem claim_C10_rebegin_every_event_witness :
    LayerState.handleEvent
      ⟨false, some ⟨3, 3⟩, ⟨3, 3⟩, ⟨some (⟨3, 3⟩, ⟨4, 4⟩), true⟩,
        [⟨0, ⟨0, 0, 1920, 1080⟩⟩]⟩
      ⟨0, ((10 : ℚ), (10 : ℚ)), .motion⟩ =
      some { exit := false, pos_pressed := some ⟨3, 3⟩, pos_current := ⟨10, 10⟩,
             selection := Selection.mk (some (⟨3, 3⟩, ⟨4, 4⟩)) true |>.begin ⟨3, 3⟩,
             layer := [⟨0, ⟨0, 0, 1920, 1080⟩⟩] } ∧
    ((⟨some (⟨3, 3⟩, ⟨4, 4⟩), true⟩ : Selection).begin ⟨3, 3⟩).from_ = some ⟨3, 3⟩ ∧
    ((⟨some (⟨3, 3⟩, ⟨4, 4⟩), true⟩ : Selection).begin ⟨3, 3⟩).to = some ⟨3, 3⟩ ∧
    (LayerState.frame
        { exit := false, pos_pressed := some ⟨3, 3⟩, pos_current := ⟨10, 10⟩,
          selection := Selection.mk (some (⟨3, 3⟩, ⟨4, 4⟩)) true |>.begin ⟨3, 3⟩,
          layer := [⟨0, ⟨0, 0, 1920, 1080⟩⟩] }).selection.to = some ⟨10, 10⟩ := by
  have h := claim_C10_rebegin_every_event
    ⟨false, some ⟨3, 3⟩, ⟨3, 3⟩, ⟨some (⟨3, 3⟩, ⟨4, 4⟩), true⟩, [⟨0, ⟨0, 0, 1920, 1080⟩⟩]⟩
    ⟨0, ((10 : ℚ), (10 : ℚ)), .motion⟩ ⟨0, 0, 1920, 1080⟩ ⟨3, 3⟩
    (by decide) (by decide) (Or.inr (Or.inr (Or.inl rfl))) (by decide)
  refine ⟨by rw [h.1]; decide, h.2.1, h.2.2.1, by decide⟩

/-- Every successfully handled pointer event stores the converted
global position of the event in pos_current, whatever its kind. -/
lemma LayerState.handleEvent_pos_current (st : LayerState) (e : PointerEvent)
    (r : IntRect) (hlk : lookupRegion st.layer e.surface = some r) :
    (st.handleEvent e).map LayerState.pos_current = some (posOfEvent r e) := by
  rcases e with ⟨sf, qp, k⟩
  cases k <;>
    simp only [LayerState.handleEvent, hlk, Option.map_some] <;>
    rcases hp : st.pos_pressed with _ | pp <;>
    simp only [hp, Option.some_inj] <;>
    (first
      | rfl
      | (split <;> (first | rfl | (split <;> rfl))))

/-- C8: the global position stored for a pointer event with local
coordinates (qx, qy) on a surface whose region origin is (r.x, r.y)
equals (floor qx + r.x, floor qy + r.y), whenever the floored values
and the sums lie in the i32 range (the saturating cast and the i32
addition are then exact); the conversion happens before the position is
stored or compared, so pos_current holds it for every event kind. -/
theorem claim_C8_local_to_global (st : LayerState) (e : PointerEvent)
    (r : IntRect)
    (hlk : lookupRegion st.layer e.surface = some r)
    (hx1 : i32Min ≤ ⌊e.position.1⌋) (hx2 : ⌊e.position.1⌋ ≤ i32Max)
    (hy1 : i32Min ≤ ⌊e.position.2⌋) (hy2 : ⌊e.position.2⌋ ≤ i32Max)
    (hgx1 : i32Min ≤ ⌊e.position.1⌋ + r.x) (hgx2 : ⌊e.position.1⌋ + r.x ≤ i32Max)
    (hgy1 : i32Min ≤ ⌊e.position.2⌋ + r.y) (hgy2 : ⌊e.position.2⌋ + r.y ≤ i32Max) :
    (st.handleEvent e).map LayerState.pos_current =
      some ⟨⌊e.position.1⌋ + r.x, ⌊e.position.2⌋ + r.y⟩ := by
  rw [st.handleEvent_pos_current e r hlk]
  unfold posOfEvent f64toI32 i32add
  rw [min_eq_right hx2, max_eq_right hx1, min_eq_right hy2, max_eq_right hy1,
    wrap32_eq_self hgx1 hgx2, wrap32_eq_self hgy1 hgy2]

/-- C8 (witness): the specification's example, local (10, 10) on the
surface whose region origin is (1920, 0), is stored as global
(1930, 10). -/
theorem claim_C8_local_to_global_witness :
    (LayerState.handleEvent
        ⟨false, none, ⟨0, 0⟩, Selection.default, [⟨1, ⟨1920, 0, 1920, 1080⟩⟩]⟩
        ⟨1, ((10 : ℚ), (10 : ℚ)), .motion⟩).map LayerState.pos_current =
      some ⟨1930, 10⟩ := by
  have h := claim_C8_local_to_global
    ⟨false, none, ⟨0, 0⟩, Selection.default, [⟨1, ⟨1920, 0, 1920, 1080⟩⟩]⟩
    ⟨1, ((10 : ℚ), (10 : ℚ)), .motion⟩ ⟨1920, 0, 1920, 1080⟩
    (by decide) (by decide) (by decide) (by decide) (by decide)
    (by decide) (by decide) (by decide) (by decide)
  rw [h]; decide

/-- C5: once Selection::end has run, the stored rectangle is immutable:
any sequence of later Selection::update calls (the per-frame update
included) leaves the selection, hence to_region, unchanged. -/
theorem claim_C5_end_freezes (s : Selection) (p : Pos) (qs : List Pos)
    (ex : Bool) (pp : Option Pos) (pc : Pos) (L : List LayerContext) :
    qs.foldl Selection.update (s.end_ p) = s.end_ p ∧
    (qs.foldl Selection.update (s.end_ p)).to_region = (s.end_ p).to_region ∧
    (LayerState.frame ⟨ex, pp, pc, s.end_ p, L⟩).selection = s.end_ p := by
  have h := Selection.foldl_update_of_not_active (s.end_ p) (s.end_active p) qs
  refine ⟨h, by rw [h], ?_⟩
  simp [LayerState.frame, Selection.update_of_not_active _ _ (s.end_active p)]

/-- C7: applying Selection::update for each of a sequence of cursor
positions ending in p yields exactly the state of a single update with
p: only the last position before a draw matters. -/
theorem claim_C7_update_idempotent (s : Selection) (ps : List Pos) (p : Pos) :
    (ps ++ [p]).foldl Selection.update s = s.update p := by
  induction ps generalizing s with
  | nil => rfl
  | cons q qs ih =>
    rw [List.cons_append, List.foldl_cons, ih, Selection.update_update]

/-- A pointer event that is not a left-button press keeps the tracker
Idle: no press position is recorded and the selection stays reset. -/
lemma LayerState.handleEvent_idle (st st' : LayerState) (e : PointerEvent)
    (hi : idle st) (hnp : e.kind.isLeftPress = false)
    (h : st.handleEvent e = some st') : idle st' := by
  obtain ⟨h1, h2⟩ := hi
  rcases hlk : lookupRegion st.layer e.surface with _ | r
  · simp [LayerState.handleEvent, hlk] at h
  · rcases e with ⟨sf, qp, k⟩
    cases k
    case press b =>
      simp only [PointerEventKind.isLeftPress, decide_eq_false_iff_not,
        not_lt, Nat.le_zero] at hnp
      simp only [LayerState.handleEvent, hlk, h1, Option.some_inj] at h
      rw [if_neg (by omega)] at h
      exact h ▸ ⟨rfl, h2⟩
    case release b =>
      simp only [LayerState.handleEvent, hlk, h1, Option.some_inj] at h
      by_cases hb : b &&& BTN_LEFT > 0
      · rw [if_pos hb] at h
        subst h
        refine ⟨rfl, ?_⟩
        show ({ st with pos_current := _ } : LayerState).selection.end_ _ = _
        show st.selection.end_ _ = _
        rw [h2, Selection.end_of_not_active _ _ rfl]
      · rw [if_neg hb] at h
        exact h ▸ ⟨rfl, h2⟩
    all_goals
      simp only [LayerState.handleEvent, hlk, h1, Option.some_inj] at h
      exact h ▸ ⟨rfl, h2⟩

/-- A batch of pointer events none of which presses the primary button
keeps the tracker Idle. -/
lemma LayerState.pointer_frame_idle (evs : List PointerEvent) :
    ∀ st st' : LayerState, idle st →
      evs.all (fun pe => ! pe.kind.isLeftPress) = true →
      st.pointer_frame evs = some st' → idle st' := by
  induction evs with
  | nil =>
    intro st st' hi _ h
    simp only [LayerState.pointer_frame, List.foldlM] at h
    exact (Option.some.inj h) ▸ hi
  | cons e evs ih =>
    intro st st' hi hall h
    rw [List.all_cons, Bool.and_eq_true, Bool.not_eq_eq_eq_not, Bool.not_true] at hall
    simp only [LayerState.pointer_frame, List.foldlM] at h
    rcases hstep : st.handleEvent e with _ | st1
    · rw [hstep] at h; exact absurd h (by simp)
    · rw [hstep] at h
      exact ih st1 st' (st.handleEvent_idle st1 e hi hall.1 hstep) hall.2 h

/-- Dispatching any event that contains no left-button press keeps the
tracker Idle. -/
lemma dispatch_idle (st st' : LayerState) (e : Event)
    (hi : idle st) (hnp : e.noLeftPress = true)
    (h : dispatch st e = some st') : idle st' := by
  cases e with
  | pointer evs =>
    exact LayerState.pointer_frame_idle evs st st' hi hnp h
  | key k =>
    simp only [dispatch, Option.some_inj] at h
    subst h
    unfold LayerState.press_key
    split
    · exact ⟨hi.1, hi.2⟩
    · exact hi
  | frame =>
    simp only [dispatch, Option.some_inj] at h
    subst h
    refine ⟨hi.1, ?_⟩
    show st.selection.update _ = _
    rw [hi.2, Selection.update_of_not_active _ _ rfl]

/-- Running the loop on left-press-free events followed by an Escape
key press, from an Idle state, exits with the tracker still Idle. -/
lemma runLoop_idle_escape (es : List Event) :
    ∀ st st' : LayerState, idle st → es.all Event.noLeftPress = true →
      runLoop st (es ++ [Event.key escapeKeysym]) = some st' →
      st'.exit = true ∧ idle st' := by
  induction es with
  | nil =>
    intro st st' hi _ h
    have hpk : st.press_key escapeKeysym = { st with exit := true } := by
      simp [LayerState.press_key]
    have hd : dispatch st (Event.key escapeKeysym) = some { st with exit := true } := by
      show some (st.press_key escapeKeysym) = some { st with exit := true }
      rw [hpk]
    rw [List.nil_append, runLoop] at h
    simp only [hd] at h
    rw [if_true, Option.some_inj] at h
    exact h ▸ ⟨rfl, hi.1, hi.2⟩
  | cons e es ih =>
    intro st st' hi hall h
    rw [List.all_cons, Bool.and_eq_true] at hall
    rw [List.cons_append, runLoop] at h
    rcases hstep : dispatch st e with _ | st1
    · simp only [hstep] at h
      exact Option.noConfusion h
    · simp only [hstep] at h
      have hi1 : idle st1 := dispatch_idle st st1 e hi hall.1 hstep
      by_cases hx : st1.exit = true
      · rw [if_pos hx, Option.some_inj] at h
        exact h ▸ ⟨hx, hi1⟩
      · rw [if_neg hx] at h
        exact ih st1 st' hi1 hall.2 h

/-- C6: in a session whose events never press the primary button, an
Escape key press terminates the event loop with the selection still
unset, and wait_for_selection reports the no-selection failure rather
than any rectangle. -/
theorem claim_C6_escape_in_idle (layers : List LayerContext)
    (es : List Event) (st' : LayerState)
    (hnp : es.all Event.noLeftPress = true)
    (hrun : runLoop (initState layers) (es ++ [Event.key escapeKeysym]) = some st') :
    st'.exit = true ∧ st'.selection.data = none ∧
    waitResult st' = Except.error "failed to get selection" := by
  obtain ⟨hexit, hpp, hsel⟩ :=
    runLoop_idle_escape es (initState layers) st' ⟨rfl, rfl⟩ hnp hrun
  refine ⟨hexit, by rw [hsel]; rfl, ?_⟩
  rw [waitResult, hsel]
  rfl

/-- C6 (witness): a session of one motion event followed by Escape on a
single 1920x1080 output. -/
theorem claim_C6_escape_in_idle_witness :
    ([Event.pointer [⟨0, ((5 : ℚ), (6 : ℚ)), .motion⟩]].all Event.noLeftPress = true) ∧
    ((⟨true, none, ⟨5, 6⟩, Selection.default, [⟨0, ⟨0, 0, 1920, 1080⟩⟩]⟩ :
        LayerState).exit = true ∧
      (⟨true, none, ⟨5, 6⟩, Selection.default, [⟨0, ⟨0, 0, 1920, 1080⟩⟩]⟩ :
        LayerState).selection.data = none ∧
      waitResult ⟨true, none, ⟨5, 6⟩, Selection.default, [⟨0, ⟨0, 0, 1920, 1080⟩⟩]⟩ =
        Except.error "failed to get selection") :=
  ⟨by decide,
    claim_C6_escape_in_idle [⟨0, ⟨0, 0, 1920, 1080⟩⟩]
      [Event.pointer [⟨0, ((5 : ℚ), (6 : ℚ)), .motion⟩]]
      ⟨true, none, ⟨5, 6⟩, Selection.default, [⟨0, ⟨0, 0, 1920, 1080⟩⟩]⟩
      (by decide) (by decide)⟩

/-- C2: a left-button press and a left-button release at the same
local position on the same surface, with no intervening motion, ends
the session with no selection: the loop exits, the selection data is
still None (Selection::begin was never reached), and
wait_for_selection returns the failure value instead of a rectangle. -/
theorem claim_C2_click_without_drag (layers : List LayerContext)
    (sf : Nat) (q : ℚ × ℚ) (r : IntRect)
    (hlk : lookupRegion layers sf = some r) :
    runLoop (initState layers)
        [Event.pointer [⟨sf, q, .press BTN_LEFT⟩],
         Event.pointer [⟨sf, q, .release BTN_LEFT⟩]] =
      some ⟨true, none, posOfEvent r ⟨sf, q, .release BTN_LEFT⟩,
            Selection.default, layers⟩ ∧
    wait_for_selection layers
        [Event.pointer [⟨sf, q, .press BTN_LEFT⟩],
         Event.pointer [⟨sf, q, .release BTN_LEFT⟩]] =
      some (Except.error "failed to get selection") := by
  have hbtn : BTN_LEFT &&& BTN_LEFT > 0 := by decide
  have hne : ¬(posOfEvent r ⟨sf, q, .release BTN_LEFT⟩ ≠
      posOfEvent r ⟨sf, q, .press BTN_LEFT⟩) := fun hc => hc rfl
  have h1 : (initState layers).handleEvent ⟨sf, q, .press BTN_LEFT⟩ =
      some ⟨false, some (posOfEvent r ⟨sf, q, .press BTN_LEFT⟩),
            posOfEvent r ⟨sf, q, .press BTN_LEFT⟩, Selection.default, layers⟩ := by
    simp only [LayerState.handleEvent, initState, hlk, if_pos hbtn]
  have h2 : LayerState.handleEvent
      ⟨false, some (posOfEvent r ⟨sf, q, .press BTN_LEFT⟩),
        posOfEvent r ⟨sf, q, .press BTN_LEFT⟩, Selection.default, layers⟩
      ⟨sf, q, .release BTN_LEFT⟩ =
      some ⟨true, none, posOfEvent r ⟨sf, q, .release BTN_LEFT⟩,
            Selection.default, layers⟩ := by
    simp only [LayerState.handleEvent, hlk, if_neg hne, if_pos hbtn]
    rfl
  have hd1 : dispatch (initState layers) (Event.pointer [⟨sf, q, .press BTN_LEFT⟩]) =
      some ⟨false, some (posOfEvent r ⟨sf, q, .press BTN_LEFT⟩),
            posOfEvent r ⟨sf, q, .press BTN_LEFT⟩, Selection.default, layers⟩ := by
    show List.foldlM LayerState.handleEvent (initState layers)
      [⟨sf, q, .press BTN_LEFT⟩] = _
    simp only [List.foldlM, h1]
    rfl
  have hd2 : dispatch
      ⟨false, some (posOfEvent r ⟨sf, q, .press BTN_LEFT⟩),
        posOfEvent r ⟨sf, q, .press BTN_LEFT⟩, Selection.default, layers⟩
      (Event.pointer [⟨sf, q, .release BTN_LEFT⟩]) =
      some ⟨true, none, posOfEvent r ⟨sf, q, .release BTN_LEFT⟩,
            Selection.default, layers⟩ := by
    show List.foldlM LayerState.handleEvent _ [⟨sf, q, .release BTN_LEFT⟩] = _
    simp only [List.foldlM, h2]
    rfl
  have hrun : runLoop (initState layers)
      [Event.pointer [⟨sf, q, .press BTN_LEFT⟩],
       Event.pointer [⟨sf, q, .release BTN_LEFT⟩]] =
      some ⟨true, none, posOfEvent r ⟨sf, q, .release BTN_LEFT⟩,
            Selection.default, layers⟩ := by
    rw [runLoop]
    simp only [hd1]
    rw [if_neg (show ¬(false = true) from Bool.false_ne_true)]
    rw [runLoop]
    simp only [hd2]
    rfl
  refine ⟨hrun, ?_⟩
  rw [wait_for_selection, hrun]
  rfl

/-- C2 (witness): a click without drag at local (10, 10) on a single
1920x1080 output ends with the no-selection failure. -/
theorem claim_C2_click_without_drag_witness :
    runLoop (initState [⟨0, ⟨0, 0, 1920, 1080⟩⟩])
        [Event.pointer [⟨0, ((10 : ℚ), (10 : ℚ)), .press BTN_LEFT⟩],
         Event.pointer [⟨0, ((10 : ℚ), (10 : ℚ)), .release BTN_LEFT⟩]] =
      some ⟨true, none,
            posOfEvent ⟨0, 0, 1920, 1080⟩ ⟨0, ((10 : ℚ), (10 : ℚ)), .release BTN_LEFT⟩,
            Selection.default, [⟨0, ⟨0, 0, 1920, 1080⟩⟩]⟩ ∧
    wait_for_selection [⟨0, ⟨0, 0, 1920, 1080⟩⟩]
        [Event.pointer [⟨0, ((10 : ℚ), (10 : ℚ)), .press BTN_LEFT⟩],
         Event.pointer [⟨0, ((10 : ℚ), (10 : ℚ)), .release BTN_LEFT⟩]] =
      some (Except.error "failed to get selection") :=
  claim_C2_click_without_drag [⟨0, ⟨0, 0, 1920, 1080⟩⟩] 0
    ((10 : ℚ), (10 : ℚ)) ⟨0, 0, 1920, 1080⟩ (by decide)

end Rq
